import Mathlib

/-!
Shallow embedding of `pkg/cmd/rollout/rollout_undo.go` (kruise-tools):
the reference-resolution, deduplication and rollback-dispatch engine of
`UndoOptions.RunUndo`, together with the per-item `undoFunc` closure.

External collaborators (the resource builder, the polymorphic rollbacker
lookup, the dry-run verifier, printers) are modelled as an environment of
functions; the control flow, branch structure, dedup keys and error paths
are translated line by line from the Go source.
-/

namespace RolloutUndo

/-- `schema.GroupVersionKind` from k8s apimachinery. -/
structure GroupVersionKind where
  group : String
  version : String
  kind : String
deriving DecidableEq

/-- `GroupVersionKind.String()` from apimachinery:
`gvk.Group + "/" + gvk.Version + ", Kind=" + gvk.Kind`. -/
def GroupVersionKind.gvkString (gvk : GroupVersionKind) : String :=
  gvk.group ++ "/" ++ gvk.version ++ ", Kind=" ++ gvk.kind

/-- `ro.Spec.ObjectRef.WorkloadRef` of a kruise Rollout object. -/
structure WorkloadRef where
  apiVersion : String
  kind : String
  name : String
deriving DecidableEq

/-- The deserialized object payload carried by a `resource.Info`, as far as
the Rollout branch of `RunUndo` inspects it: `nil`, an object that fails the
cast to `*kruiserolloutsv1apha1.Rollout`, or a Rollout with its workload
reference. -/
inductive Payload where
  | missing
  | notRollout
  | rollout (ref : WorkloadRef)
deriving DecidableEq

/-- The fields of `resource.Info` that `RunUndo` reads: the mapping's
group/version/kind, the namespace, the name, and the object payload. -/
structure Info where
  gvk : GroupVersionKind
  ns : String
  name : String
  payload : Payload
deriving DecidableEq

/-- `cmdutil.DryRunStrategy`. -/
inductive DryRunStrategy where
  | noDryRun
  | client
  | server
deriving DecidableEq

/-- The error values `RunUndo` and `undoFunc` can record for one item. -/
inductive Err where
  | rolloutNotFound
  | unsupportedRolloutVersion
  | invalidReference (msg : String)
  | duplicateTarget
  | noRollbacker
  | dryRunUnsupported
  | strategyError (msg : String)
  | printerError
deriving DecidableEq

/-- Observable actions of one run: printing the "references to" line for a
pointer object, invoking `rollbacker.Rollback`, and printing a rollback
outcome line. -/
inductive Event where
  | printedRef (rid : String) (info : Info)
  | rollbackCall (info : Info)
  | printedOutcome (desc : String) (info : Info)
deriving DecidableEq

/-- External collaborators of the engine, plus the option fields of
`UndoOptions` that `undoFunc` reads. -/
structure Env where
  dryRunStrategy : DryRunStrategy
  toRevision : Int
  rollbackerOk : GroupVersionKind → Bool
  dryRunSupported : GroupVersionKind → Bool
  rollback : Info → Int → DryRunStrategy → Except String String
  toPrinterOk : String → Bool
  printObjOk : Info → Bool

/-- The two resource-builder invocations: whether `r.Err()` / `r2.Err()`
are nil, and what handle each Phase-2 reference string resolves to. -/
structure Sources where
  phase1BuildOk : Bool
  phase2BuildOk : Bool
  phase2Resolve : GroupVersionKind → String → Info

/-- `schema.ParseGroupVersion` from apimachinery: empty or "/" parses to
the empty group/version; zero slashes means a bare version; one slash
splits group from version; more is an error. -/
def parseGroupVersion (s : String) : Except String (String × String) :=
  if s = "" ∨ s = "/" then Except.ok ("", "")
  else
    let cs := s.toList
    match cs.count '/' with
    | 0 => Except.ok ("", s)
    | 1 =>
        Except.ok (String.mk (cs.takeWhile (fun c => c != '/')),
                   String.mk ((cs.dropWhile (fun c => c != '/')).drop 1))
    | _ => Except.error ("unexpected GroupVersion string: " ++ s)

/-- The dedup key built at lines 267 and 286 of the source:
`gvk.String() + name`.  Note that the namespace is not part of the key. -/
def dedupKey (gvk : GroupVersionKind) (name : String) : String :=
  gvk.gvkString ++ name

/-- The dedup key of a handle taken directly (`info.Mapping.GroupVersionKind`
and `info.Name`). -/
def keyOf (info : Info) : String := dedupKey info.gvk info.name

/-- Line 273: `workloadRef.Kind + "." + gv.Version + "." + gv.Group + "/" +
workloadRef.Name`, the reference string queued for Phase 2. -/
def resourceIdentifier (gvk : GroupVersionKind) (name : String) : String :=
  gvk.kind ++ "." ++ gvk.version ++ "." ++ gvk.group ++ "/" ++ name

/-- Line 250: the guard selecting the Rollout (pointer) branch. -/
def rolloutGVKMatch (gvk : GroupVersionKind) : Bool :=
  gvk.group == "rollouts.kruise.io" && gvk.kind == "Rollout"

/-- Result of the `undoFunc` closure on one handle. -/
structure UndoOut where
  evs : List Event
  ierr : Option Err
deriving DecidableEq

/-- The `undoFunc` closure (source lines 211-236): look up the polymorphic
rollbacker; when the dry-run strategy is server-side, ask the dry-run
verifier before anything mutates; call `rollbacker.Rollback`; then print the
resulting description. -/
def undoFunc (env : Env) (info : Info) : UndoOut :=
  if env.rollbackerOk info.gvk then
    if env.dryRunStrategy = DryRunStrategy.server ∧
        env.dryRunSupported info.gvk = false then
      ⟨[], some Err.dryRunUnsupported⟩
    else
      match env.rollback info env.toRevision env.dryRunStrategy with
      | Except.error m => ⟨[Event.rollbackCall info], some (Err.strategyError m)⟩
      | Except.ok desc =>
          if env.toPrinterOk desc then
            if env.printObjOk info then
              ⟨[Event.rollbackCall info, Event.printedOutcome desc info], none⟩
            else ⟨[Event.rollbackCall info], some Err.printerError⟩
          else ⟨[Event.rollbackCall info], some Err.printerError⟩
  else ⟨[], some Err.noRollbacker⟩

/-- The mutable state threaded through the Phase-1 visit: the `deDuplica`
set (modelled as the list of inserted keys) and the `refResources` queue
(kept in structured form; the queued string is `resourceIdentifier` of the
pair). -/
structure St where
  deDuplica : List String
  refs : List (GroupVersionKind × String)
deriving DecidableEq

/-- Result of visiting one handle in Phase 1. -/
structure StepOut where
  st : St
  evs : List Event
  ierr : Option Err
deriving DecidableEq

/-- The Phase-1 visitor closure (source lines 245-296).  A handle whose
mapping is `rollouts.kruise.io/Rollout` is treated as a pointer: its
workload reference is parsed, the dedup key of the *referenced* workload is
checked and inserted, a "references to" line is printed and the reference is
queued.  Any other handle is deduped under its own key and dispatched to
`undoFunc`; the key is inserted before the dispatch. -/
def visitOne (env : Env) (s : St) (info : Info) : StepOut :=
  if rolloutGVKMatch info.gvk then
    match info.payload with
    | Payload.missing => ⟨s, [], some Err.rolloutNotFound⟩
    | Payload.notRollout => ⟨s, [], some Err.unsupportedRolloutVersion⟩
    | Payload.rollout ref =>
        match parseGroupVersion ref.apiVersion with
        | Except.error m => ⟨s, [], some (Err.invalidReference m)⟩
        | Except.ok (g, v) =>
            let gvk : GroupVersionKind := ⟨g, v, ref.kind⟩
            let key := dedupKey gvk ref.name
            if key ∈ s.deDuplica then ⟨s, [], some Err.duplicateTarget⟩
            else
              let rid := resourceIdentifier gvk ref.name
              if env.toPrinterOk ("references to " ++ rid) then
                if env.printObjOk info then
                  ⟨⟨s.deDuplica ++ [key], s.refs ++ [(gvk, ref.name)]⟩,
                   [Event.printedRef rid info], none⟩
                else ⟨s, [], some Err.printerError⟩
              else ⟨s, [], some Err.printerError⟩
  else
    let key := dedupKey info.gvk info.name
    if key ∈ s.deDuplica then ⟨s, [], some Err.duplicateTarget⟩
    else
      let o := undoFunc env info
      ⟨⟨s.deDuplica ++ [key], s.refs⟩, o.evs, o.ierr⟩

/-- Result of a whole Phase-1 visitation. -/
structure P1Out where
  st : St
  evs : List Event
  ierrs : List (Option Err)
deriving DecidableEq

/-- `r.Visit` over the Phase-1 stream with continue-on-error semantics:
every handle is visited, one recorded error slot per handle. -/
def visitList (env : Env) (s : St) : List Info → P1Out
  | [] => ⟨s, [], []⟩
  | i :: rest =>
      let o := visitOne env s i
      let r := visitList env o.st rest
      ⟨r.st, o.evs ++ r.evs, o.ierr :: r.ierrs⟩

/-- Result of the Phase-2 visitation. -/
structure P2Out where
  evs : List Event
  ierrs : List (Option Err)
deriving DecidableEq

/-- `r2.Visit(undoFunc)`: Phase 2 dispatches every resolved handle straight
to `undoFunc`; there is no dedup state in scope here at all. -/
def undoList (env : Env) : List Info → P2Out
  | [] => ⟨[], []⟩
  | i :: rest =>
      let o := undoFunc env i
      let r := undoList env rest
      ⟨o.evs ++ r.evs, o.ierr :: r.ierrs⟩

/-- What `RunUndo` returns to its caller. -/
inductive RunOutcome where
  | ok
  | buildFail (phase : Nat)
  | combinedFail (errs1 errs2 : List Err)
  | panicNil
deriving DecidableEq

/-- Full observable result of one `RunUndo` invocation. -/
structure RunResult where
  phase1Events : List Event
  phase1ItemErrs : List (Option Err)
  phase2Events : List Event
  phase2ItemErrs : List (Option Err)
  ret : RunOutcome
deriving DecidableEq

/-- `RunUndo` (source lines 197-321).  Phase 1 visits the handles resolved
from the arguments; its aggregate error is bound but the early return is
commented out in the source, so when no references were queued the function
returns nil regardless of recorded errors.  Otherwise a second builder run
resolves the queued references and `undoFunc` is applied to each; finally
the source computes `fmt.Errorf(err.Error() + "\n" + err2.Error())`, which
dereferences a nil aggregate when either phase recorded no error —
modelled as `RunOutcome.panicNil`. -/
def runUndo (env : Env) (src : Sources) (infos : List Info) : RunResult :=
  if src.phase1BuildOk then
    let o := visitList env ⟨[], []⟩ infos
    if o.st.refs.length < 1 then ⟨o.evs, o.ierrs, [], [], RunOutcome.ok⟩
    else if src.phase2BuildOk then
      let infos2 := o.st.refs.map (fun q => src.phase2Resolve q.1 q.2)
      let o2 := undoList env infos2
      ⟨o.evs, o.ierrs, o2.evs, o2.ierrs,
        if (o.ierrs.filterMap id).isEmpty ∨ (o2.ierrs.filterMap id).isEmpty then
          RunOutcome.panicNil
        else
          RunOutcome.combinedFail (o.ierrs.filterMap id) (o2.ierrs.filterMap id)⟩
    else ⟨o.evs, o.ierrs, [], [], RunOutcome.buildFail 2⟩
  else ⟨[], [], [], [], RunOutcome.buildFail 1⟩

/-- The canonical identity of the workload a handle stands for: for a
pointer object, the dedup key of the referenced workload; for anything
else, the handle's own dedup key. -/
def targetIdentity (info : Info) : Option String :=
  if rolloutGVKMatch info.gvk then
    match info.payload with
    | Payload.rollout ref =>
        match parseGroupVersion ref.apiVersion with
        | Except.ok (g, v) => some (dedupKey ⟨g, v, ref.kind⟩ ref.name)
        | Except.error _ => none
    | _ => none
  else some (dedupKey info.gvk info.name)

/-- The identities named by a handle stream, in order, with multiplicity. -/
def targetsOf (infos : List Info) : List String :=
  infos.filterMap targetIdentity

/-- Number of `Rollback` invocations against identity `k` in an event
trace. -/
def callCount (k : String) (evs : List Event) : Nat :=
  evs.countP (fun e =>
    match e with
    | Event.rollbackCall i => keyOf i == k
    | _ => false)

/-- Number of queued references whose target has identity `k`. -/
def refKeyCount (k : String) (refs : List (GroupVersionKind × String)) : Nat :=
  refs.countP (fun q => dedupKey q.1 q.2 == k)

/-- An environment in which every external collaborator succeeds. -/
def envAllGood (env : Env) : Prop :=
  (∀ gvk, env.rollbackerOk gvk = true) ∧
  (∀ gvk, env.dryRunSupported gvk = true) ∧
  (∀ info rev strat, ∃ d, env.rollback info rev strat = Except.ok d) ∧
  (∀ s, env.toPrinterOk s = true) ∧
  (∀ i, env.printObjOk i = true)

/-- Both builder runs succeed and the Phase-2 source faithfully resolves
each queued reference to a handle with that group/version/kind and name. -/
def srcGood (src : Sources) : Prop :=
  src.phase1BuildOk = true ∧ src.phase2BuildOk = true ∧
  ∀ gvk n, (src.phase2Resolve gvk n).gvk = gvk ∧ (src.phase2Resolve gvk n).name = n

/-- Concrete all-success environment for witnesses. -/
def envOk : Env :=
  { dryRunStrategy := DryRunStrategy.noDryRun
    toRevision := 0
    rollbackerOk := fun _ => true
    dryRunSupported := fun _ => true
    rollback := fun _ _ _ => Except.ok "rolled back"
    toPrinterOk := fun _ => true
    printObjOk := fun _ => true }

/-- Concrete all-success sources for witnesses. -/
def srcOk : Sources :=
  { phase1BuildOk := true
    phase2BuildOk := true
    phase2Resolve := fun gvk n => ⟨gvk, "default", n, Payload.notRollout⟩ }

/-- apps/v1 Deployment. -/
def deployGVK : GroupVersionKind := ⟨"apps", "v1", "Deployment"⟩

/-- The handle `deployment/abc` resolves to. -/
def deployAbc : Info := ⟨deployGVK, "default", "abc", Payload.notRollout⟩

/-- The same deployment name in another namespace. -/
def deployAbcOther : Info := ⟨deployGVK, "other", "abc", Payload.notRollout⟩

/-- rollouts.kruise.io/v1alpha1 Rollout. -/
def rolloutGVK : GroupVersionKind := ⟨"rollouts.kruise.io", "v1alpha1", "Rollout"⟩

/-- Workload reference carried by the example Rollout: `cloneset/abc`. -/
def cloneSetRef : WorkloadRef := ⟨"apps.kruise.io/v1alpha1", "CloneSet", "abc"⟩

/-- The handle `rollout/abc` resolves to: a pointer at `cloneset/abc`. -/
def rolloutAbc : Info := ⟨rolloutGVK, "default", "abc", Payload.rollout cloneSetRef⟩

/-- The workload handle `cloneset/abc` resolves to. -/
def cloneSetAbc : Info :=
  ⟨⟨"apps.kruise.io", "v1alpha1", "CloneSet"⟩, "default", "abc", Payload.notRollout⟩

/-! ### Basic unfolding lemmas -/

theorem visitList_nil (env : Env) (s : St) : visitList env s [] = ⟨s, [], []⟩ := rfl

theorem visitList_cons_st (env : Env) (s : St) (i : Info) (rest : List Info) :
    (visitList env s (i :: rest)).st = (visitList env (visitOne env s i).st rest).st := rfl

theorem visitList_cons_evs (env : Env) (s : St) (i : Info) (rest : List Info) :
    (visitList env s (i :: rest)).evs =
      (visitOne env s i).evs ++ (visitList env (visitOne env s i).st rest).evs := rfl

theorem visitList_cons_ierrs (env : Env) (s : St) (i : Info) (rest : List Info) :
    (visitList env s (i :: rest)).ierrs =
      (visitOne env s i).ierr :: (visitList env (visitOne env s i).st rest).ierrs := rfl

/-- Keys already recorded in `deDuplica` survive one visit step, whatever
the step does. -/
theorem deDuplica_mono_one (env : Env) (s : St) (i : Info) :
    ∀ k ∈ s.deDuplica, k ∈ (visitOne env s i).st.deDuplica := by
  intro k hk
  simp only [visitOne]
  repeat' split
  all_goals simp_all [List.mem_append]

/-- Keys already recorded in `deDuplica` survive a whole visitation. -/
theorem deDuplica_mono (env : Env) (infos : List Info) :
    ∀ (s : St), ∀ k ∈ s.deDuplica, k ∈ (visitList env s infos).st.deDuplica := by
  induction infos with
  | nil => intro s k hk; simpa [visitList_nil] using hk
  | cons i rest ih =>
      intro s k hk
      rw [visitList_cons_st]
      exact ih _ _ (deDuplica_mono_one env s i k hk)

/-- A directly-named handle whose key is already recorded is rejected as a
duplicate: state unchanged, no events, `duplicateTarget` recorded. -/
theorem visitOne_direct_dup (env : Env) (s : St) (j : Info)
    (hj : rolloutGVKMatch j.gvk = false) (hmem : keyOf j ∈ s.deDuplica) :
    visitOne env s j = ⟨s, [], some Err.duplicateTarget⟩ := by
  have h : dedupKey j.gvk j.name ∈ s.deDuplica := hmem
  simp [visitOne, hj, h]

/-- In an all-success environment `undoFunc` performs exactly one
`Rollback` call and prints one outcome line. -/
theorem undoFunc_good (env : Env) (henv : envAllGood env) (i : Info) :
    ∃ d, undoFunc env i =
      ⟨[Event.rollbackCall i, Event.printedOutcome d i], none⟩ := by
  obtain ⟨d, hd⟩ := henv.2.2.1 i env.toRevision env.dryRunStrategy
  refine ⟨d, ?_⟩
  simp [undoFunc, henv.1, henv.2.1, henv.2.2.2.1, henv.2.2.2.2, hd]

/-- `undoFunc` can never record a duplicate-target error: it makes no dedup
decision at all. -/
theorem undoFunc_ne_dup (env : Env) (i : Info) :
    (undoFunc env i).ierr ≠ some Err.duplicateTarget := by
  simp only [undoFunc]
  repeat' split
  all_goals simp

/-- Environment whose dry-run verifier rejects everything while the
strategy lookup succeeds, for the C8 witness. -/
def envDryRunBlocked : Env :=
  { envOk with dryRunStrategy := DryRunStrategy.server
               dryRunSupported := fun _ => false }

/-- Environment whose rollback strategy always fails, for the C10
witness. -/
def envRollbackFails : Env :=
  { envOk with rollback := fun _ _ _ => Except.error "strategy failed" }

/-- C8: when the dry-run strategy is server-side and the verifier reports
the target's group/version/kind unsupported (and a rollback strategy does
resolve for it), `undoFunc` records the verifier's error and never reaches
the `Rollback` call: no event is emitted at all. -/
theorem dry_run_gate_blocks_rollback (env : Env) (info : Info)
    (hs : env.dryRunStrategy = DryRunStrategy.server)
    (hu : env.dryRunSupported info.gvk = false)
    (hr : env.rollbackerOk info.gvk = true) :
    undoFunc env info = ⟨[], some Err.dryRunUnsupported⟩ := by
  simp [undoFunc, hs, hu, hr]

/-- Witness for C8 at a concrete server-side dry-run environment. -/
theorem dry_run_gate_blocks_rollback_witness :
    undoFunc envDryRunBlocked deployAbc = ⟨[], some Err.dryRunUnsupported⟩ :=
  dry_run_gate_blocks_rollback envDryRunBlocked deployAbc rfl rfl rfl

/-- C7: if Phase 1 queued no workload references, `RunUndo` stops after
Phase 1: the result consists of the Phase-1 events and per-item errors
only, the second builder (whose behaviour `src` could prescribe
arbitrarily) is never consulted, no further rollback attempt happens, and
the function returns nil. -/
theorem phase2_skipped_when_no_refs (env : Env) (src : Sources) (infos : List Info)
    (hb : src.phase1BuildOk = true)
    (hr : (visitList env ⟨[], []⟩ infos).st.refs = []) :
    runUndo env src infos =
      ⟨(visitList env ⟨[], []⟩ infos).evs, (visitList env ⟨[], []⟩ infos).ierrs,
       [], [], RunOutcome.ok⟩ := by
  simp [runUndo, hb, hr]

/-- Witness for C7: a run over one plain deployment queues nothing. -/
theorem phase2_skipped_when_no_refs_witness :
    runUndo envOk srcOk [deployAbc] =
      ⟨(visitList envOk ⟨[], []⟩ [deployAbc]).evs,
       (visitList envOk ⟨[], []⟩ [deployAbc]).ierrs, [], [], RunOutcome.ok⟩ :=
  phase2_skipped_when_no_refs envOk srcOk [deployAbc] rfl (by decide)

/-- C10: in the direct-workload branch the key is inserted into `deDuplica`
before `undoFunc` runs, so whatever the rollback attempt does (the
environment is arbitrary here, so the attempt may fail in any way), any
later handle with the same key — after any number of intervening visits —
is rejected as a duplicate rather than retried. -/
theorem dedup_reserved_before_attempt (env : Env) (s : St) (i : Info)
    (hi : rolloutGVKMatch i.gvk = false)
    (hk : keyOf i ∉ s.deDuplica) :
    (visitOne env s i).st.deDuplica = s.deDuplica ++ [keyOf i] ∧
    ∀ mid j, rolloutGVKMatch j.gvk = false → keyOf j = keyOf i →
      (visitOne env (visitList env (visitOne env s i).st mid).st j).ierr =
        some Err.duplicateTarget := by
  have hk' : dedupKey i.gvk i.name ∉ s.deDuplica := hk
  have h1 : (visitOne env s i).st.deDuplica = s.deDuplica ++ [keyOf i] := by
    simp [visitOne, hi, hk', keyOf]
  refine ⟨h1, ?_⟩
  intro mid j hj hkey
  have hmem : keyOf j ∈ (visitList env (visitOne env s i).st mid).st.deDuplica := by
    apply deDuplica_mono
    rw [h1, hkey]
    simp
  rw [visitOne_direct_dup env _ j hj hmem]

/-- Witness for C10: with an always-failing strategy, the first visit of
`deployment/abc` fails but a repeat of the same identity is still rejected
as a duplicate. -/
theorem dedup_reserved_before_attempt_witness :
    (visitOne envRollbackFails ⟨[], []⟩ deployAbc).st.deDuplica = [] ++ [keyOf deployAbc] ∧
    (visitOne envRollbackFails
        (visitList envRollbackFails (visitOne envRollbackFails ⟨[], []⟩ deployAbc).st []).st
        deployAbc).ierr = some Err.duplicateTarget := by
  have h := dedup_reserved_before_attempt envRollbackFails ⟨[], []⟩ deployAbc
    (by decide) (by decide)
  exact ⟨h.1, h.2 [] deployAbc (by decide) rfl⟩

/-- C3 (code bug): on the invocation `["deployment/abc", "deployment/abc"]`
the first item is rolled back and a `duplicateTarget` error is recorded for
the second, but because no pointer objects were discovered the function
returns nil — the recorded Phase-1 error is discarded instead of being
surfaced, so the invocation signals success, contradicting the claimed
failure exit. -/
theorem duplicate_error_swallowed_when_no_refs :
    (runUndo envOk srcOk [deployAbc, deployAbc]).phase1Events =
      [Event.rollbackCall deployAbc, Event.printedOutcome "rolled back" deployAbc] ∧
    (runUndo envOk srcOk [deployAbc, deployAbc]).phase1ItemErrs =
      [none, some Err.duplicateTarget] ∧
    (runUndo envOk srcOk [deployAbc, deployAbc]).ret = RunOutcome.ok := by
  refine ⟨by decide, by decide, by decide⟩

/-- C4 (code bug): on a fully successful run in which Phase 2 executes
(`["rollout/abc"]` pointing at `cloneset/abc`), both phases record zero
errors, and the final `fmt.Errorf(err.Error() + "\n" + err2.Error())` join
dereferences the nil Phase-1 aggregate — the run ends in a nil-pointer
panic instead of returning success. -/
theorem final_join_panics_on_success :
    (runUndo envOk srcOk [rolloutAbc]).phase1ItemErrs.filterMap id = [] ∧
    (runUndo envOk srcOk [rolloutAbc]).phase2ItemErrs.filterMap id = [] ∧
    (runUndo envOk srcOk [rolloutAbc]).phase2Events =
      [Event.rollbackCall cloneSetAbc, Event.printedOutcome "rolled back" cloneSetAbc] ∧
    (runUndo envOk srcOk [rolloutAbc]).ret = RunOutcome.panicNil := by
  refine ⟨by decide, by decide, by decide, by decide⟩

/-- C2 (counterexample): two deployments with the same group, version,
kind and name but different namespaces.  The claim says they have distinct
identities and are each rolled back once; in the code the dedup key is
`GroupVersionKind.String() + Name`, without the namespace, so the second
is rejected as a duplicate and only one rollback call happens. -/
theorem identity_ignores_namespace_cex :
    deployAbc.ns ≠ deployAbcOther.ns ∧
    deployAbc.gvk = deployAbcOther.gvk ∧ deployAbc.name = deployAbcOther.name ∧
    (runUndo envOk srcOk [deployAbc, deployAbcOther]).phase1ItemErrs =
      [none, some Err.duplicateTarget] ∧
    callCount (keyOf deployAbc)
        ((runUndo envOk srcOk [deployAbc, deployAbcOther]).phase1Events ++
          (runUndo envOk srcOk [deployAbc, deployAbcOther]).phase2Events) = 1 := by
  refine ⟨by decide, by decide, by decide, by decide, by decide⟩

/-- C2 (amended): the canonical identity is computed from group, version,
kind and name only — the namespace is not part of the key.  Any two
directly-named handles agreeing on group/version/kind and name share one
identity whatever their namespaces: the first occurrence is dispatched and
the second is rejected as a duplicate. -/
theorem identity_from_gvk_and_name (env : Env) (i j : Info) (x : String)
    (hi : rolloutGVKMatch i.gvk = false)
    (hg : j.gvk = i.gvk) (hn : j.name = i.name) :
    targetIdentity { i with ns := x } = targetIdentity i ∧
    keyOf j = keyOf i ∧
    ∀ s : St, keyOf i ∉ s.deDuplica →
      (visitList env s [i, j]).ierrs =
        [(undoFunc env i).ierr, some Err.duplicateTarget] := by
  have hkeq : keyOf j = keyOf i := by rw [keyOf, keyOf, hg, hn]
  refine ⟨by cases i; rfl, hkeq, ?_⟩
  intro s hks
  have hks' : dedupKey i.gvk i.name ∉ s.deDuplica := hks
  have hj : rolloutGVKMatch j.gvk = false := by rw [hg]; exact hi
  have e1 : visitOne env s i =
      ⟨⟨s.deDuplica ++ [keyOf i], s.refs⟩, (undoFunc env i).evs, (undoFunc env i).ierr⟩ := by
    simp [visitOne, hi, hks', keyOf]
  have hmem : keyOf j ∈ (visitOne env s i).st.deDuplica := by
    rw [e1, hkeq]; simp
  have e2 := visitOne_direct_dup env (visitOne env s i).st j hj hmem
  rw [visitList_cons_ierrs, visitList_cons_ierrs, e2, e1]
  rfl

/-- Witness for the amended C2 at the two concrete namespaces. -/
theorem identity_from_gvk_and_name_witness :
    targetIdentity { deployAbc with ns := "other" } = targetIdentity deployAbc ∧
    keyOf deployAbcOther = keyOf deployAbc ∧
    (visitList envOk ⟨[], []⟩ [deployAbc, deployAbcOther]).ierrs =
      [(undoFunc envOk deployAbc).ierr, some Err.duplicateTarget] := by
  have h := identity_from_gvk_and_name envOk deployAbc deployAbcOther "other"
    (by decide) (by decide) (by decide)
  exact ⟨h.1, h.2.1, h.2.2 ⟨[], []⟩ (by decide)⟩

/-- C5: the dedup identity a pointer submits is that of the referenced
workload, computed at resolution time, so a pointer at workload W and W
named directly share one identity: whichever of the two is visited second
is rejected as a duplicate, in either order. -/
theorem pointer_identity_is_target_identity (env : Env)
    (p w : Info) (ref : WorkloadRef) (g v : String)
    (hp : rolloutGVKMatch p.gvk = true)
    (hpay : p.payload = Payload.rollout ref)
    (hgv : parseGroupVersion ref.apiVersion = Except.ok (g, v))
    (hw : rolloutGVKMatch w.gvk = false)
    (hwg : w.gvk = ⟨g, v, ref.kind⟩)
    (hwn : w.name = ref.name)
    (hpr : ∀ t, env.toPrinterOk t = true)
    (hpo : ∀ i, env.printObjOk i = true) :
    targetIdentity p = some (keyOf w) ∧
    (visitList env ⟨[], []⟩ [p, w]).ierrs = [none, some Err.duplicateTarget] ∧
    (visitList env ⟨[], []⟩ [w, p]).ierrs[1]? = some (some Err.duplicateTarget) := by
  have hkey : keyOf w = dedupKey ⟨g, v, ref.kind⟩ ref.name := by
    rw [keyOf, hwg, hwn]
  refine ⟨?_, ?_, ?_⟩
  · simp [targetIdentity, hp, hpay, hgv, hkey]
  · have e1 : visitOne env ⟨[], []⟩ p =
        ⟨⟨[dedupKey ⟨g, v, ref.kind⟩ ref.name], [(⟨g, v, ref.kind⟩, ref.name)]⟩,
         [Event.printedRef (resourceIdentifier ⟨g, v, ref.kind⟩ ref.name) p], none⟩ := by
      simp [visitOne, hp, hpay, hgv, hpr, hpo]
    have hmem : keyOf w ∈ (visitOne env ⟨[], []⟩ p).st.deDuplica := by
      rw [e1, hkey]; simp
    have e2 := visitOne_direct_dup env (visitOne env ⟨[], []⟩ p).st w hw hmem
    rw [visitList_cons_ierrs, visitList_cons_ierrs, e2, e1]
    rfl
  · have hne : dedupKey w.gvk w.name ∉ (⟨[], []⟩ : St).deDuplica := by simp
    have e3 : visitOne env ⟨[], []⟩ w =
        ⟨⟨[keyOf w], []⟩, (undoFunc env w).evs, (undoFunc env w).ierr⟩ := by
      simp [visitOne, hw, hne, keyOf]
    have hmem2 : dedupKey ⟨g, v, ref.kind⟩ ref.name ∈ (⟨[keyOf w], []⟩ : St).deDuplica := by
      rw [← hkey]; simp
    have e4 : visitOne env ⟨[keyOf w], []⟩ p =
        ⟨⟨[keyOf w], []⟩, [], some Err.duplicateTarget⟩ := by
      simp [visitOne, hp, hpay, hgv, ← hkey]
    rw [visitList_cons_ierrs, visitList_cons_ierrs, e3]
    dsimp only
    rw [e4]
    rfl

/-- Witness for C5: `rollout/abc` (pointing at `cloneset/abc`) together
with `cloneset/abc` named directly, in both orders. -/
theorem pointer_identity_is_target_identity_witness :
    targetIdentity rolloutAbc = some (keyOf cloneSetAbc) ∧
    (visitList envOk ⟨[], []⟩ [rolloutAbc, cloneSetAbc]).ierrs =
      [none, some Err.duplicateTarget] ∧
    (visitList envOk ⟨[], []⟩ [cloneSetAbc, rolloutAbc]).ierrs[1]? =
      some (some Err.duplicateTarget) :=
  pointer_identity_is_target_identity envOk rolloutAbc cloneSetAbc cloneSetRef
    "apps.kruise.io" "v1alpha1" (by decide) rfl (by rfl) (by decide) rfl rfl
    (fun _ => rfl) (fun _ => rfl)

/-- One visit step records exactly the target identity of the handle (when
printers succeed): membership in `deDuplica` afterwards is membership
before, or being that handle's target identity. -/
theorem mem_visitOne_deDuplica (env : Env)
    (hpr : ∀ t, env.toPrinterOk t = true) (hpo : ∀ j, env.printObjOk j = true)
    (s : St) (i : Info) (k : String) :
    k ∈ (visitOne env s i).st.deDuplica ↔
      k ∈ s.deDuplica ∨ targetIdentity i = some k := by
  by_cases hm : rolloutGVKMatch i.gvk = true
  · cases hpay : i.payload with
    | missing => simp [visitOne, targetIdentity, hm, hpay]
    | notRollout => simp [visitOne, targetIdentity, hm, hpay]
    | rollout ref =>
        cases hgv : parseGroupVersion ref.apiVersion with
        | error m => simp [visitOne, targetIdentity, hm, hpay, hgv]
        | ok gv =>
            obtain ⟨g, v⟩ := gv
            by_cases hk : dedupKey ⟨g, v, ref.kind⟩ ref.name ∈ s.deDuplica
            · simp [visitOne, targetIdentity, hm, hpay, hgv, hk]
              exact fun h => h ▸ hk
            · simp [visitOne, targetIdentity, hm, hpay, hgv, hk, hpr, hpo, List.mem_append]
              exact or_congr Iff.rfl eq_comm
  · rw [Bool.not_eq_true] at hm
    by_cases hk : dedupKey i.gvk i.name ∈ s.deDuplica
    · rw [visitOne_direct_dup env s i hm hk]
      simp [targetIdentity, hm]
      exact fun h => h ▸ hk
    · simp [visitOne, targetIdentity, hm, hk]
      exact or_congr Iff.rfl eq_comm

/-- Whole-visitation version of `mem_visitOne_deDuplica`. -/
theorem mem_visitList_deDuplica (env : Env)
    (hpr : ∀ t, env.toPrinterOk t = true) (hpo : ∀ j, env.printObjOk j = true)
    (infos : List Info) :
    ∀ (s : St) (k : String),
      k ∈ (visitList env s infos).st.deDuplica ↔
        k ∈ s.deDuplica ∨ k ∈ targetsOf infos := by
  induction infos with
  | nil => intro s k; simp [visitList_nil, targetsOf]
  | cons i rest ih =>
      intro s k
      rw [visitList_cons_st, ih (visitOne env s i).st k,
        mem_visitOne_deDuplica env hpr hpo s i k]
      cases ht : targetIdentity i with
      | none => simp [targetsOf, List.filterMap_cons, ht]
      | some t =>
          simp only [targetsOf, List.filterMap_cons, ht, List.mem_cons, Option.some.injEq]
          constructor
          · rintro ((h | h) | h)
            · exact Or.inl h
            · exact Or.inr (Or.inl h.symm)
            · exact Or.inr (Or.inr h)
          · rintro (h | h | h)
            · exact Or.inl (Or.inl h)
            · exact Or.inl (Or.inr h.symm)
            · exact Or.inr h

/-- In an all-success environment, the error recorded for a handle with
target identity `k` is `duplicateTarget` exactly when `k` was already
reserved, and nothing otherwise. -/
theorem visitOne_ierr_good (env : Env) (henv : envAllGood env) (s : St) (i : Info)
    (k : String) (hk : targetIdentity i = some k) :
    (visitOne env s i).ierr =
      if k ∈ s.deDuplica then some Err.duplicateTarget else none := by
  by_cases hm : rolloutGVKMatch i.gvk = true
  · cases hpay : i.payload with
    | missing => simp [targetIdentity, hm, hpay] at hk
    | notRollout => simp [targetIdentity, hm, hpay] at hk
    | rollout ref =>
        cases hgv : parseGroupVersion ref.apiVersion with
        | error m => simp [targetIdentity, hm, hpay, hgv] at hk
        | ok gv =>
            obtain ⟨g, v⟩ := gv
            have hkk : dedupKey ⟨g, v, ref.kind⟩ ref.name = k := by
              simpa [targetIdentity, hm, hpay, hgv] using hk
            subst hkk
            by_cases hmem : dedupKey ⟨g, v, ref.kind⟩ ref.name ∈ s.deDuplica
            · simp [visitOne, hm, hpay, hgv, hmem]
            · simp [visitOne, hm, hpay, hgv, hmem, henv.2.2.2.1, henv.2.2.2.2]
  · rw [Bool.not_eq_true] at hm
    have hkk : dedupKey i.gvk i.name = k := by simpa [targetIdentity, hm] using hk
    subst hkk
    by_cases hmem : dedupKey i.gvk i.name ∈ s.deDuplica
    · simp [visitOne, hm, hmem]
    · obtain ⟨d, hd⟩ := undoFunc_good env henv i
      simp [visitOne, hm, hmem, hd]

theorem callCount_nil (k : String) : callCount k [] = 0 := rfl

theorem callCount_append (k : String) (a b : List Event) :
    callCount k (a ++ b) = callCount k a + callCount k b :=
  List.countP_append _ _ _

theorem callCount_printedRef (k rid : String) (i : Info) :
    callCount k [Event.printedRef rid i] = 0 := by
  simp [callCount]

theorem callCount_undo (k d : String) (i : Info) :
    callCount k [Event.rollbackCall i, Event.printedOutcome d i] =
      if keyOf i = k then 1 else 0 := by
  simp [callCount, List.countP_cons]

theorem refKeyCount_nil (k : String) : refKeyCount k [] = 0 := rfl

theorem refKeyCount_append (k : String) (a b : List (GroupVersionKind × String)) :
    refKeyCount k (a ++ b) = refKeyCount k a + refKeyCount k b :=
  List.countP_append _ _ _

theorem refKeyCount_single (k : String) (q : GroupVersionKind × String) :
    refKeyCount k [q] = if dedupKey q.1 q.2 = k then 1 else 0 := by
  simp [refKeyCount, List.countP_cons]

/-- Counting invariant, frozen case: once identity `k` is reserved in
`deDuplica`, visiting any further stream dispatches no rollback against
`k` and queues no reference with target `k`. -/
theorem calls_queued_frozen (env : Env) (henv : envAllGood env) (infos : List Info) :
    ∀ (s : St) (k : String), k ∈ s.deDuplica →
      callCount k (visitList env s infos).evs +
          refKeyCount k (visitList env s infos).st.refs =
        refKeyCount k s.refs := by
  induction infos with
  | nil => intro s k _; simp [visitList_nil, callCount_nil]
  | cons i rest ih =>
      intro s k hk
      rw [visitList_cons_evs, visitList_cons_st, callCount_append]
      by_cases hm : rolloutGVKMatch i.gvk = true
      · cases hpay : i.payload with
        | missing =>
            have e : visitOne env s i = ⟨s, [], some Err.rolloutNotFound⟩ := by
              simp [visitOne, hm, hpay]
            rw [e]
            simpa [callCount_nil] using ih s k hk
        | notRollout =>
            have e : visitOne env s i = ⟨s, [], some Err.unsupportedRolloutVersion⟩ := by
              simp [visitOne, hm, hpay]
            rw [e]
            simpa [callCount_nil] using ih s k hk
        | rollout ref =>
            cases hgv : parseGroupVersion ref.apiVersion with
            | error m =>
                have e : visitOne env s i = ⟨s, [], some (Err.invalidReference m)⟩ := by
                  simp [visitOne, hm, hpay, hgv]
                rw [e]
                simpa [callCount_nil] using ih s k hk
            | ok gv =>
                obtain ⟨g, v⟩ := gv
                by_cases hmem : dedupKey ⟨g, v, ref.kind⟩ ref.name ∈ s.deDuplica
                · have e : visitOne env s i = ⟨s, [], some Err.duplicateTarget⟩ := by
                    simp [visitOne, hm, hpay, hgv, hmem]
                  rw [e]
                  simpa [callCount_nil] using ih s k hk
                · have hne : k ≠ dedupKey ⟨g, v, ref.kind⟩ ref.name :=
                    fun h => hmem (h ▸ hk)
                  have e : visitOne env s i =
                      ⟨⟨s.deDuplica ++ [dedupKey ⟨g, v, ref.kind⟩ ref.name],
                        s.refs ++ [(⟨g, v, ref.kind⟩, ref.name)]⟩,
                       [Event.printedRef (resourceIdentifier ⟨g, v, ref.kind⟩ ref.name) i],
                       none⟩ := by
                    simp [visitOne, hm, hpay, hgv, hmem, henv.2.2.2.1, henv.2.2.2.2]
                  rw [e]
                  have IH := ih ⟨s.deDuplica ++ [dedupKey ⟨g, v, ref.kind⟩ ref.name],
                      s.refs ++ [(⟨g, v, ref.kind⟩, ref.name)]⟩ k
                    (List.mem_append.mpr (Or.inl hk))
                  have hsingle : refKeyCount k [(⟨g, v, ref.kind⟩, ref.name)] = 0 := by
                    rw [refKeyCount_single]
                    exact if_neg (fun h => hne h.symm)
                  rw [refKeyCount_append, hsingle] at IH
                  simpa [callCount_printedRef] using IH
      · rw [Bool.not_eq_true] at hm
        by_cases hmem : dedupKey i.gvk i.name ∈ s.deDuplica
        · have e : visitOne env s i = ⟨s, [], some Err.duplicateTarget⟩ := by
            simp [visitOne, hm, hmem]
          rw [e]
          simpa [callCount_nil] using ih s k hk
        · have hne : k ≠ dedupKey i.gvk i.name := fun h => hmem (h ▸ hk)
          obtain ⟨d, hd⟩ := undoFunc_good env henv i
          have e : visitOne env s i =
              ⟨⟨s.deDuplica ++ [dedupKey i.gvk i.name], s.refs⟩,
               [Event.rollbackCall i, Event.printedOutcome d i], (none : Option Err)⟩ := by
            simp [visitOne, hm, hmem, hd]
          rw [e]
          have IH := ih ⟨s.deDuplica ++ [dedupKey i.gvk i.name], s.refs⟩ k
            (List.mem_append.mpr (Or.inl hk))
          have hcall : callCount k [Event.rollbackCall i, Event.printedOutcome d i] = 0 := by
            rw [callCount_undo]
            exact if_neg (fun h => hne h.symm)
          simpa [hcall] using IH

/-- Counting invariant, fresh case: if identity `k` is not yet reserved,
then across the visitation the number of rollback calls against `k` plus
the number of newly queued references with target `k` is one exactly when
the stream names `k` at least once, and zero otherwise. -/
theorem calls_queued_fresh (env : Env) (henv : envAllGood env) (infos : List Info) :
    ∀ (s : St) (k : String), k ∉ s.deDuplica →
      callCount k (visitList env s infos).evs +
          refKeyCount k (visitList env s infos).st.refs =
        refKeyCount k s.refs + (if k ∈ targetsOf infos then 1 else 0) := by
  induction infos with
  | nil => intro s k _; simp [visitList_nil, targetsOf, callCount_nil]
  | cons i rest ih =>
      intro s k hk
      rw [visitList_cons_evs, visitList_cons_st, callCount_append]
      by_cases hm : rolloutGVKMatch i.gvk = true
      · cases hpay : i.payload with
        | missing =>
            have e : visitOne env s i = ⟨s, [], some Err.rolloutNotFound⟩ := by
              simp [visitOne, hm, hpay]
            have ht : targetIdentity i = none := by simp [targetIdentity, hm, hpay]
            have hcons : targetsOf (i :: rest) = targetsOf rest := by
              simp [targetsOf, List.filterMap_cons, ht]
            rw [e, hcons]
            simpa [callCount_nil] using ih s k hk
        | notRollout =>
            have e : visitOne env s i = ⟨s, [], some Err.unsupportedRolloutVersion⟩ := by
              simp [visitOne, hm, hpay]
            have ht : targetIdentity i = none := by simp [targetIdentity, hm, hpay]
            have hcons : targetsOf (i :: rest) = targetsOf rest := by
              simp [targetsOf, List.filterMap_cons, ht]
            rw [e, hcons]
            simpa [callCount_nil] using ih s k hk
        | rollout ref =>
            cases hgv : parseGroupVersion ref.apiVersion with
            | error m =>
                have e : visitOne env s i = ⟨s, [], some (Err.invalidReference m)⟩ := by
                  simp [visitOne, hm, hpay, hgv]
                have ht : targetIdentity i = none := by
                  simp [targetIdentity, hm, hpay, hgv]
                have hcons : targetsOf (i :: rest) = targetsOf rest := by
                  simp [targetsOf, List.filterMap_cons, ht]
                rw [e, hcons]
                simpa [callCount_nil] using ih s k hk
            | ok gv =>
                obtain ⟨g, v⟩ := gv
                have ht : targetIdentity i = some (dedupKey ⟨g, v, ref.kind⟩ ref.name) := by
                  simp [targetIdentity, hm, hpay, hgv]
                have hcons : targetsOf (i :: rest) =
                    dedupKey ⟨g, v, ref.kind⟩ ref.name :: targetsOf rest := by
                  simp [targetsOf, List.filterMap_cons, ht]
                by_cases hmem : dedupKey ⟨g, v, ref.kind⟩ ref.name ∈ s.deDuplica
                · have hne : k ≠ dedupKey ⟨g, v, ref.kind⟩ ref.name :=
                    fun h => hk (h ▸ hmem)
                  have e : visitOne env s i = ⟨s, [], some Err.duplicateTarget⟩ := by
                    simp [visitOne, hm, hpay, hgv, hmem]
                  rw [e, hcons]
                  simpa [callCount_nil, List.mem_cons, hne] using ih s k hk
                · rcases eq_or_ne k (dedupKey ⟨g, v, ref.kind⟩ ref.name) with rfl | hne
                  · have e : visitOne env s i =
                        ⟨⟨s.deDuplica ++ [dedupKey ⟨g, v, ref.kind⟩ ref.name],
                          s.refs ++ [(⟨g, v, ref.kind⟩, ref.name)]⟩,
                         [Event.printedRef (resourceIdentifier ⟨g, v, ref.kind⟩ ref.name) i],
                         none⟩ := by
                      simp [visitOne, hm, hpay, hgv, hmem, henv.2.2.2.1, henv.2.2.2.2]
                    rw [e, hcons]
                    have IH := calls_queued_frozen env henv rest
                      ⟨s.deDuplica ++ [dedupKey ⟨g, v, ref.kind⟩ ref.name],
                        s.refs ++ [(⟨g, v, ref.kind⟩, ref.name)]⟩
                      (dedupKey ⟨g, v, ref.kind⟩ ref.name) (by simp)
                    have hsingle : refKeyCount (dedupKey ⟨g, v, ref.kind⟩ ref.name)
                        [(⟨g, v, ref.kind⟩, ref.name)] = 1 := by
                      rw [refKeyCount_single]
                      exact if_pos rfl
                    rw [refKeyCount_append, hsingle] at IH
                    simp only [callCount_printedRef, List.mem_cons, true_or, if_pos]
                    omega
                  · have e : visitOne env s i =
                        ⟨⟨s.deDuplica ++ [dedupKey ⟨g, v, ref.kind⟩ ref.name],
                          s.refs ++ [(⟨g, v, ref.kind⟩, ref.name)]⟩,
                         [Event.printedRef (resourceIdentifier ⟨g, v, ref.kind⟩ ref.name) i],
                         none⟩ := by
                      simp [visitOne, hm, hpay, hgv, hmem, henv.2.2.2.1, henv.2.2.2.2]
                    rw [e, hcons]
                    have hk2 : k ∉ s.deDuplica ++ [dedupKey ⟨g, v, ref.kind⟩ ref.name] := by
                      simp [List.mem_append, hk, hne]
                    have IH := ih ⟨s.deDuplica ++ [dedupKey ⟨g, v, ref.kind⟩ ref.name],
                      s.refs ++ [(⟨g, v, ref.kind⟩, ref.name)]⟩ k hk2
                    have hsingle : refKeyCount k [(⟨g, v, ref.kind⟩, ref.name)] = 0 := by
                      rw [refKeyCount_single]
                      exact if_neg (fun h => hne h.symm)
                    rw [refKeyCount_append, hsingle] at IH
                    simpa [callCount_printedRef, List.mem_cons, hne] using IH
      · rw [Bool.not_eq_true] at hm
        have ht : targetIdentity i = some (dedupKey i.gvk i.name) := by
          simp [targetIdentity, hm]
        have hcons : targetsOf (i :: rest) =
            dedupKey i.gvk i.name :: targetsOf rest := by
          simp [targetsOf, List.filterMap_cons, ht]
        by_cases hmem : dedupKey i.gvk i.name ∈ s.deDuplica
        · have hne : k ≠ dedupKey i.gvk i.name := fun h => hk (h ▸ hmem)
          have e : visitOne env s i = ⟨s, [], some Err.duplicateTarget⟩ := by
            simp [visitOne, hm, hmem]
          rw [e, hcons]
          simpa [callCount_nil, List.mem_cons, hne] using ih s k hk
        · obtain ⟨d, hd⟩ := undoFunc_good env henv i
          have e : visitOne env s i =
              ⟨⟨s.deDuplica ++ [dedupKey i.gvk i.name], s.refs⟩,
               [Event.rollbackCall i, Event.printedOutcome d i], (none : Option Err)⟩ := by
            simp [visitOne, hm, hmem, hd]
          rcases eq_or_ne k (dedupKey i.gvk i.name) with rfl | hne
          · rw [e, hcons]
            have IH := calls_queued_frozen env henv rest
              ⟨s.deDuplica ++ [dedupKey i.gvk i.name], s.refs⟩
              (dedupKey i.gvk i.name) (by simp)
            dsimp only at IH
            have hcall : callCount (dedupKey i.gvk i.name)
                [Event.rollbackCall i, Event.printedOutcome d i] = 1 := by
              rw [callCount_undo]
              exact if_pos rfl
            simp only [hcall, List.mem_cons, true_or, if_pos]
            omega
          · rw [e, hcons]
            have hk2 : k ∉ s.deDuplica ++ [dedupKey i.gvk i.name] := by
              simp [List.mem_append, hk, hne]
            have IH := ih ⟨s.deDuplica ++ [dedupKey i.gvk i.name], s.refs⟩ k hk2
            have hcall : callCount k [Event.rollbackCall i, Event.printedOutcome d i] = 0 := by
              rw [callCount_undo]
              exact if_neg (fun h => hne h.symm)
            simpa [hcall, List.mem_cons, hne] using IH

theorem undoList_cons_evs (env : Env) (i : Info) (rest : List Info) :
    (undoList env (i :: rest)).evs = (undoFunc env i).evs ++ (undoList env rest).evs := rfl

theorem undoList_cons_ierrs (env : Env) (i : Info) (rest : List Info) :
    (undoList env (i :: rest)).ierrs = (undoFunc env i).ierr :: (undoList env rest).ierrs := rfl

/-- Phase 2 records one error slot per resolved handle, each computed by
`undoFunc` alone. -/
theorem undoList_ierrs (env : Env) (infos2 : List Info) :
    (undoList env infos2).ierrs = infos2.map (fun j => (undoFunc env j).ierr) := by
  induction infos2 with
  | nil => rfl
  | cons i rest ih => rw [undoList_cons_ierrs, ih, List.map_cons]

/-- In an all-success environment, Phase 2 performs exactly one rollback
call per resolved handle. -/
theorem undoList_calls_good (env : Env) (henv : envAllGood env) (infos2 : List Info)
    (k : String) :
    callCount k (undoList env infos2).evs =
      infos2.countP (fun j => keyOf j == k) := by
  induction infos2 with
  | nil => rfl
  | cons i rest ih =>
      obtain ⟨d, hd⟩ := undoFunc_good env henv i
      rw [undoList_cons_evs, callCount_append, hd, ih, List.countP_cons]
      dsimp only
      rw [callCount_undo]
      rcases eq_or_ne (keyOf i) k with h | h
      · simp [h]
        omega
      · simp [h]

/-- The Phase-2 rollback calls, counted through the faithful resolver: one
per queued reference with the queued identity. -/
theorem undoList_resolve_calls (env : Env) (henv : envAllGood env) (src : Sources)
    (hres : ∀ gvk n, (src.phase2Resolve gvk n).gvk = gvk ∧
      (src.phase2Resolve gvk n).name = n)
    (refs : List (GroupVersionKind × String)) (k : String) :
    callCount k (undoList env (refs.map (fun q => src.phase2Resolve q.1 q.2))).evs =
      refKeyCount k refs := by
  rw [undoList_calls_good env henv, List.countP_map, refKeyCount]
  congr 1
  funext q
  simp [Function.comp, keyOf, (hres q.1 q.2).1, (hres q.1 q.2).2]

theorem visitList_append (env : Env) (xs ys : List Info) :
    ∀ s : St, visitList env s (xs ++ ys) =
      ⟨(visitList env (visitList env s xs).st ys).st,
       (visitList env s xs).evs ++ (visitList env (visitList env s xs).st ys).evs,
       (visitList env s xs).ierrs ++ (visitList env (visitList env s xs).st ys).ierrs⟩ := by
  induction xs with
  | nil => intro s; simp [visitList]
  | cons x xs ih =>
      intro s
      simp [visitList, ih (visitOne env s x).st, List.append_assoc]

theorem visitList_ierrs_length (env : Env) (infos : List Info) :
    ∀ s : St, (visitList env s infos).ierrs.length = infos.length := by
  induction infos with
  | nil => intro s; rfl
  | cons i rest ih => intro s; simp [visitList_cons_ierrs, ih]

theorem getq_append_len {α : Type} (l1 l2 : List α) :
    (l1 ++ l2)[l1.length]? = l2[0]? := by
  induction l1 with
  | nil => rfl
  | cons a l ih => simpa using ih

/-- Projections of `runUndo` when both builders succeed: Phase-1 fields come
from the visitation, Phase-2 fields from dispatching the queued references,
empty when the queue is empty. -/
theorem runUndo_fields (env : Env) (src : Sources) (infos : List Info)
    (hb1 : src.phase1BuildOk = true) (hb2 : src.phase2BuildOk = true) :
    (runUndo env src infos).phase1Events = (visitList env ⟨[], []⟩ infos).evs ∧
    (runUndo env src infos).phase1ItemErrs = (visitList env ⟨[], []⟩ infos).ierrs ∧
    (runUndo env src infos).phase2Events =
      (if (visitList env ⟨[], []⟩ infos).st.refs.length < 1 then []
       else (undoList env ((visitList env ⟨[], []⟩ infos).st.refs.map
          (fun q => src.phase2Resolve q.1 q.2))).evs) ∧
    (runUndo env src infos).phase2ItemErrs =
      (if (visitList env ⟨[], []⟩ infos).st.refs.length < 1 then []
       else (undoList env ((visitList env ⟨[], []⟩ infos).st.refs.map
          (fun q => src.phase2Resolve q.1 q.2))).ierrs) := by
  by_cases hlen : (visitList env ⟨[], []⟩ infos).st.refs.length < 1 <;>
    simp [runUndo, hb1, hb2, hlen]

/-- One visit step preserves the invariant that every queued reference's
target key is already reserved in `deDuplica`; this holds for any
environment. -/
theorem visitOne_refs_inv (env : Env) (s : St) (i : Info)
    (h : ∀ q ∈ s.refs, dedupKey q.1 q.2 ∈ s.deDuplica) :
    ∀ q ∈ (visitOne env s i).st.refs,
      dedupKey q.1 q.2 ∈ (visitOne env s i).st.deDuplica := by
  intro q hq
  by_cases hm : rolloutGVKMatch i.gvk = true
  · cases hpay : i.payload with
    | missing =>
        simp only [visitOne, hm, hpay, if_true] at hq ⊢
        exact h q hq
    | notRollout =>
        simp only [visitOne, hm, hpay, if_true] at hq ⊢
        exact h q hq
    | rollout ref =>
        cases hgv : parseGroupVersion ref.apiVersion with
        | error m =>
            have e : visitOne env s i = ⟨s, [], some (Err.invalidReference m)⟩ := by
              simp [visitOne, hm, hpay, hgv]
            rw [e] at hq ⊢
            exact h q hq
        | ok gv =>
            obtain ⟨g, v⟩ := gv
            by_cases hmem : dedupKey ⟨g, v, ref.kind⟩ ref.name ∈ s.deDuplica
            · have e : visitOne env s i = ⟨s, [], some Err.duplicateTarget⟩ := by
                simp [visitOne, hm, hpay, hgv, hmem]
              rw [e] at hq ⊢
              exact h q hq
            · by_cases hp1 : env.toPrinterOk
                  ("references to " ++ resourceIdentifier ⟨g, v, ref.kind⟩ ref.name) = true
              · by_cases hp2 : env.printObjOk i = true
                · have e : visitOne env s i =
                      ⟨⟨s.deDuplica ++ [dedupKey ⟨g, v, ref.kind⟩ ref.name],
                        s.refs ++ [(⟨g, v, ref.kind⟩, ref.name)]⟩,
                       [Event.printedRef (resourceIdentifier ⟨g, v, ref.kind⟩ ref.name) i],
                       none⟩ := by
                    simp [visitOne, hm, hpay, hgv, hmem, hp1, hp2]
                  rw [e] at hq ⊢
                  simp only [List.mem_append, List.mem_singleton] at hq ⊢
                  rcases hq with hq | hq
                  · exact Or.inl (h q hq)
                  · subst hq
                    exact Or.inr rfl
                · have e : visitOne env s i = ⟨s, [], some Err.printerError⟩ := by
                    simp [visitOne, hm, hpay, hgv, hmem, hp1, hp2]
                  rw [e] at hq ⊢
                  exact h q hq
              · have e : visitOne env s i = ⟨s, [], some Err.printerError⟩ := by
                  simp [visitOne, hm, hpay, hgv, hmem, hp1]
                rw [e] at hq ⊢
                exact h q hq
  · rw [Bool.not_eq_true] at hm
    by_cases hmem : dedupKey i.gvk i.name ∈ s.deDuplica
    · have e : visitOne env s i = ⟨s, [], some Err.duplicateTarget⟩ := by
        simp [visitOne, hm, hmem]
      rw [e] at hq ⊢
      exact h q hq
    · have e : visitOne env s i =
          ⟨⟨s.deDuplica ++ [dedupKey i.gvk i.name], s.refs⟩,
           (undoFunc env i).evs, (undoFunc env i).ierr⟩ := by
        simp [visitOne, hm, hmem]
      rw [e] at hq ⊢
      exact List.mem_append.mpr (Or.inl (h q hq))

/-- Whole-visitation version of `visitOne_refs_inv`. -/
theorem visitList_refs_inv (env : Env) (infos : List Info) :
    ∀ s : St, (∀ q ∈ s.refs, dedupKey q.1 q.2 ∈ s.deDuplica) →
      ∀ q ∈ (visitList env s infos).st.refs,
        dedupKey q.1 q.2 ∈ (visitList env s infos).st.deDuplica := by
  induction infos with
  | nil => intro s h; simpa [visitList_nil] using h
  | cons i rest ih =>
      intro s h
      rw [visitList_cons_st]
      exact ih (visitOne env s i).st (visitOne_refs_inv env s i h)

/-- C1: in an all-success environment with a faithful Phase-2 resolver,
every canonical identity named at least once among the resolved targets
(directly or through a pointer) receives exactly one rollback dispatch over
the two phases, identities never named receive none, and each item whose
target identity already appeared earlier in the stream records a
`duplicateTarget` error (its slot is `none` when it is the first
appearance). -/
theorem dedup_exactly_once (env : Env) (src : Sources) (infos : List Info)
    (henv : envAllGood env) (hsrc : srcGood src) :
    (∀ k : String,
      callCount k ((runUndo env src infos).phase1Events ++
          (runUndo env src infos).phase2Events) =
        if k ∈ targetsOf infos then 1 else 0) ∧
    (∀ (pre : List Info) (i : Info) (post : List Info) (k : String),
      infos = pre ++ i :: post → targetIdentity i = some k →
        (runUndo env src infos).phase1ItemErrs[pre.length]? =
          some (if k ∈ targetsOf pre then some Err.duplicateTarget else none)) := by
  obtain ⟨hb1, hb2, hres⟩ := hsrc
  obtain ⟨hf1, hf2, hf3, hf4⟩ := runUndo_fields env src infos hb1 hb2
  constructor
  · intro k
    rw [hf1, hf3, callCount_append]
    have H := calls_queued_fresh env henv infos ⟨[], []⟩ k (by simp)
    by_cases hlen : (visitList env ⟨[], []⟩ infos).st.refs.length < 1
    · have hrefs : (visitList env ⟨[], []⟩ infos).st.refs = [] :=
        List.length_eq_zero.mp (Nat.lt_one_iff.mp hlen)
      rw [if_pos hlen, callCount_nil]
      simp only [hrefs, refKeyCount_nil] at H
      simpa using H
    · rw [if_neg hlen,
        undoList_resolve_calls env henv src hres (visitList env ⟨[], []⟩ infos).st.refs k]
      simpa [refKeyCount_nil] using H
  · intro pre i post k heq hk
    subst heq
    rw [hf2, visitList_append env pre (i :: post) ⟨[], []⟩]
    dsimp only
    rw [visitList_cons_ierrs]
    rw [← visitList_ierrs_length env pre ⟨[], []⟩, getq_append_len]
    rw [List.getElem?_cons_zero,
      visitOne_ierr_good env henv (visitList env ⟨[], []⟩ pre).st i k hk]
    have hmem : (k ∈ (visitList env ⟨[], []⟩ pre).st.deDuplica) = (k ∈ targetsOf pre) := by
      rw [mem_visitList_deDuplica env henv.2.2.2.1 henv.2.2.2.2 pre ⟨[], []⟩ k]
      simp
    simp only [hmem]

/-- Witness for C1: `["deployment/abc", "deployment/abc"]` — one rollback
call for the shared identity and a duplicate error in the second slot. -/
theorem dedup_exactly_once_witness :
    envAllGood envOk ∧ srcGood srcOk ∧
    callCount (keyOf deployAbc) ((runUndo envOk srcOk [deployAbc, deployAbc]).phase1Events ++
        (runUndo envOk srcOk [deployAbc, deployAbc]).phase2Events) = 1 ∧
    (runUndo envOk srcOk [deployAbc, deployAbc]).phase1ItemErrs[1]? =
      some (some Err.duplicateTarget) := by
  have hg : envAllGood envOk :=
    ⟨fun _ => rfl, fun _ => rfl, fun _ _ _ => ⟨"rolled back", rfl⟩,
     fun _ => rfl, fun _ => rfl⟩
  have hs : srcGood srcOk := ⟨rfl, rfl, fun _ _ => ⟨rfl, rfl⟩⟩
  have h := dedup_exactly_once envOk srcOk [deployAbc, deployAbc] hg hs
  refine ⟨hg, hs, ?_, ?_⟩
  · exact (h.1 (keyOf deployAbc)).trans (by decide)
  · exact (h.2 [deployAbc] deployAbc [] (keyOf deployAbc) rfl (by decide)).trans (by decide)

/-- C6: a single pointer object P referencing workload W.  Phase 1 performs
no rollback attempt — it only prints the "references to" line and queues
the reference — and Phase 2 resolves the queued reference and performs
exactly one rollback attempt, against the handle W resolves to. -/
theorem two_phase_single_pointer (env : Env) (src : Sources)
    (p : Info) (ref : WorkloadRef) (g v : String)
    (hp : rolloutGVKMatch p.gvk = true)
    (hpay : p.payload = Payload.rollout ref)
    (hgv : parseGroupVersion ref.apiVersion = Except.ok (g, v))
    (henv : envAllGood env) (hsrc : srcGood src) :
    ∃ d, runUndo env src [p] =
      { phase1Events := [Event.printedRef (resourceIdentifier ⟨g, v, ref.kind⟩ ref.name) p]
        phase1ItemErrs := [none]
        phase2Events := [Event.rollbackCall (src.phase2Resolve ⟨g, v, ref.kind⟩ ref.name),
          Event.printedOutcome d (src.phase2Resolve ⟨g, v, ref.kind⟩ ref.name)]
        phase2ItemErrs := [none]
        ret := RunOutcome.panicNil } := by
  obtain ⟨hb1, hb2, hres⟩ := hsrc
  have e1 : visitOne env ⟨[], []⟩ p =
      ⟨⟨[dedupKey ⟨g, v, ref.kind⟩ ref.name], [(⟨g, v, ref.kind⟩, ref.name)]⟩,
       [Event.printedRef (resourceIdentifier ⟨g, v, ref.kind⟩ ref.name) p], none⟩ := by
    simp [visitOne, hp, hpay, hgv, henv.2.2.2.1, henv.2.2.2.2]
  obtain ⟨d, hd⟩ := undoFunc_good env henv (src.phase2Resolve ⟨g, v, ref.kind⟩ ref.name)
  refine ⟨d, ?_⟩
  simp [runUndo, hb1, hb2, visitList, e1, undoList, hd]

/-- Witness for C6 on `rollout/abc` → `cloneset/abc`. -/
theorem two_phase_single_pointer_witness :
    ∃ d, runUndo envOk srcOk [rolloutAbc] =
      { phase1Events := [Event.printedRef
          (resourceIdentifier ⟨"apps.kruise.io", "v1alpha1", "CloneSet"⟩ "abc") rolloutAbc]
        phase1ItemErrs := [none]
        phase2Events := [Event.rollbackCall
            (srcOk.phase2Resolve ⟨"apps.kruise.io", "v1alpha1", "CloneSet"⟩ "abc"),
          Event.printedOutcome d
            (srcOk.phase2Resolve ⟨"apps.kruise.io", "v1alpha1", "CloneSet"⟩ "abc")]
        phase2ItemErrs := [none]
        ret := RunOutcome.panicNil } :=
  two_phase_single_pointer envOk srcOk rolloutAbc cloneSetRef "apps.kruise.io" "v1alpha1"
    (by decide) rfl (by rfl)
    ⟨fun _ => rfl, fun _ => rfl, fun _ _ _ => ⟨"rolled back", rfl⟩, fun _ => rfl, fun _ => rfl⟩
    ⟨rfl, rfl, fun _ _ => ⟨rfl, rfl⟩⟩

/-- C9: when Phase 2 runs, every identity queued in Phase 1 is already
reserved in the dedup set, yet Phase 2 dispatches `undoFunc` once per
resolved handle with no dedup decision: its per-item outcomes are exactly
the map of `undoFunc` over the resolved handles — independent of the dedup
set — and none of them is a duplicate-target rejection. -/
theorem phase2_no_dedup_consult (env : Env) (src : Sources) (infos : List Info)
    (hb1 : src.phase1BuildOk = true) (hb2 : src.phase2BuildOk = true)
    (hne : ¬ (visitList env ⟨[], []⟩ infos).st.refs.length < 1) :
    (∀ q ∈ (visitList env ⟨[], []⟩ infos).st.refs,
        dedupKey q.1 q.2 ∈ (visitList env ⟨[], []⟩ infos).st.deDuplica) ∧
    (runUndo env src infos).phase2ItemErrs =
      ((visitList env ⟨[], []⟩ infos).st.refs.map
        (fun q => src.phase2Resolve q.1 q.2)).map (fun j => (undoFunc env j).ierr) ∧
    ∀ e ∈ (runUndo env src infos).phase2ItemErrs, e ≠ some Err.duplicateTarget := by
  obtain ⟨hf1, hf2, hf3, hf4⟩ := runUndo_fields env src infos hb1 hb2
  have hmap : (runUndo env src infos).phase2ItemErrs =
      ((visitList env ⟨[], []⟩ infos).st.refs.map
        (fun q => src.phase2Resolve q.1 q.2)).map (fun j => (undoFunc env j).ierr) := by
    rw [hf4, if_neg hne, undoList_ierrs]
  refine ⟨visitList_refs_inv env infos ⟨[], []⟩ (by simp), hmap, ?_⟩
  intro e he
  rw [hmap] at he
  obtain ⟨j, _, hj⟩ := List.mem_map.mp he
  rw [← hj]
  exact undoFunc_ne_dup env j

/-- Witness for C9 on `["rollout/abc"]`. -/
theorem phase2_no_dedup_consult_witness :
    (∀ q ∈ (visitList envOk ⟨[], []⟩ [rolloutAbc]).st.refs,
        dedupKey q.1 q.2 ∈ (visitList envOk ⟨[], []⟩ [rolloutAbc]).st.deDuplica) ∧
    (runUndo envOk srcOk [rolloutAbc]).phase2ItemErrs =
      ((visitList envOk ⟨[], []⟩ [rolloutAbc]).st.refs.map
        (fun q => srcOk.phase2Resolve q.1 q.2)).map (fun j => (undoFunc envOk j).ierr) ∧
    ∀ e ∈ (runUndo envOk srcOk [rolloutAbc]).phase2ItemErrs,
      e ≠ some Err.duplicateTarget :=
  phase2_no_dedup_consult envOk srcOk [rolloutAbc] rfl rfl (by decide)

end RolloutUndo
